import Mathlib

/-!
Verification development for the RDP display-list builder and the Q16.16
fixed-point library of this repository.

The C sources are shallowly embedded:

* 32-bit / 16-bit machine integers are `Int` together with explicit
  wrap-around (`toInt32`, `toInt16`); unsigned 32-bit command words are `Nat`
  values below 2 ^ 32 (`u32` reinterprets a signed value as its twos-complement bit pattern, exactly what the C code does when it stores an
  `int` expression into a `uint32_t` slot).
* C `/` on `int` truncates toward zero and is embedded as `Int.tdiv`;
  C `>>` on a signed operand is an arithmetic shift, i.e. floor division,
  embedded as `Int.fdiv` by the corresponding power of two.
* `float`/`double` arithmetic is embedded over `ℚ` (the exact value
  semantics of the written expressions); every concrete input used in a
  theorem below is small enough that the C float computation is exact, so
  the embedding agrees with the source bit for bit at those points.
* fallible operations (integer division whose divisor might be zero) return
  `Option`.
-/

/-- Reinterpret an arbitrary integer as a signed 32-bit value
(twos-complement wrap-around, as C conversion to `int32_t` behaves). -/
def toInt32 (i : Int) : Int := (i + 2147483648) % 4294967296 - 2147483648

/-- Reinterpret an arbitrary integer as a signed 16-bit value. -/
def toInt16 (i : Int) : Int := (i + 32768) % 65536 - 32768

/-- The 32-bit twos-complement bit pattern of an integer, as a natural
number below 2 ^ 32 (C conversion of an `int` to `uint32_t`). -/
def u32 (i : Int) : Nat := (i % 4294967296).toNat

/-- The low 16 bits of an integer (C conversion of an `int` to `uint16_t`). -/
def u16 (i : Int) : Nat := (i % 65536).toNat

/-- Wrap-around 32-bit subtraction (C `int` subtraction on a 32-bit target). -/
def sub32 (a b : Int) : Int := toInt32 (a - b)

/-- Wrap-around 32-bit addition (C `int` addition on a 32-bit target). -/
def add32 (a b : Int) : Int := toInt32 (a + b)

/-- A value is representable in a signed 32-bit register. -/
def inRange32 (i : Int) : Prop := -2147483648 ≤ i ∧ i < 2147483648

instance (i : Int) : Decidable (inRange32 i) := by unfold inRange32; infer_instance

/-- Truncation of a rational toward zero (the C cast of a floating value to
`int`). On a reduced fraction this is truncating division of the numerator
by the denominator. -/
def ratTrunc (q : ℚ) : Int := q.num.tdiv (q.den : Int)

/-! ## Q16.16 fixed point library (src/include/fixed.h) -/

/-- FX_Q from fixed.h: the number of fractional bits. -/
def FX_Q : Nat := 16

/-- FX_K from fixed.h: the rounding bias `1 << (FX_Q-1)`. -/
def FX_K : Int := 32768

/-- FX_FromInt from fixed.h: `fx = f << 16`, then saturation overrides for
`f > 32768` and `f < -32768` (both comparisons strict in the source). -/
def FX_FromInt (f : Int) : Int :=
  let fx := toInt32 (f * 65536)
  let fx := if f > 32768 then 0x7FFFFFFF else fx
  let fx := if f < -32768 then -0x80000000 else fx
  fx

/-- FX_FromFloat from fixed.h, over `ℚ`:
`fx = ((int)floor(f) << 16) | (int)((f - floor(f)) * 65536)`, then the same
two strict saturation overrides.  The bitwise or combines the twos-complement patterns, exactly as the C `|` on `int` operands does. -/
def FX_FromFloat (f : ℚ) : Int :=
  let fx := toInt32 (Int.ofNat (u32 (⌊f⌋ * 65536) ||| (ratTrunc ((f - ⌊f⌋) * 65536)).toNat))
  let fx := if f > 32768 then 0x7FFFFFFF else fx
  let fx := if f < -32768 then -0x80000000 else fx
  fx

/-- FX_Multiply from fixed.h: the full 64-bit product plus the bias FX_K,
arithmetically shifted right by FX_Q (floor division by 2^16), with the
int64 result stored back into a 32-bit `Fixed`. -/
def FX_Multiply (a b : Int) : Int := toInt32 ((a * b + FX_K).fdiv 65536)

/-- FX_Divide from fixed.h: the dividend widened to 64 bits and shifted left
by FX_Q, half the divisor added or subtracted according to sign agreement
(C truncating divisions), the quotient stored back into a 32-bit `Fixed`. -/
def FX_Divide (a b : Int) : Int :=
  let temp := a * 65536
  let temp :=
    if (0 ≤ temp ∧ 0 ≤ b) ∨ (temp < 0 ∧ b < 0) then temp + b.tdiv 2 else temp - b.tdiv 2
  toInt32 (temp.tdiv b)

/-- Division as actually performed by the hardware-facing code: evaluating
FX_Divide with a zero divisor is a fault, so the checked form returns
`none` exactly there. -/
def FX_DivideChecked (a b : Int) : Option Int :=
  if b = 0 then none else some (FX_Divide a b)

/-! ## Display list finalization and submission scan (rdp.c)

A display list is a sequence of 64-bit command words, modelled as natural
numbers below 2 ^ 64.  `rdp_end_display_list` appends the sentinel word
`0x7FFFFFFFFFFFFFFF`; the length scan at the start of
`rdp_execute_display_list` walks forward until it reads a word equal to
`0xFFFFFFFFFFFFFFFF` and yields the number of words before it.  The C loop
has no bound, so the scan is embedded as a structural recursion over the
supplied memory contents that returns `none` when no word in the supplied
buffer matches: in C that execution keeps reading past the buffer. -/

/-- rdp_end_display_list: append the end-of-list sentinel command
`0x7FFFFFFFFFFFFFFF` and advance the display list pointer. -/
def rdp_end_display_list (l : List Nat) : List Nat := l ++ [0x7FFFFFFFFFFFFFFF]

/-- The forward scan of rdp_execute_display_list:
`while (list[n].command != 0xFFFFFFFFFFFFFFFF) n++;` — the index of the
first word equal to `0xFFFFFFFFFFFFFFFF`, or `none` when the loop runs off
the end of the supplied memory. -/
def rdp_execute_scan : List Nat → Option Nat
  | [] => none
  | w :: ws =>
      if w = 0xFFFFFFFFFFFFFFFF then some 0 else (rdp_execute_scan ws).map (· + 1)

/-! ## Detach and the completion counter (rdp.c)

`rdp_detach_display` zeroes the interrupt counter, emits a SYNC_FULL
command, and — although the surrounding `if` on the interrupt state is
present — the wait loop `while (!wait_intr) ;` inside it is commented out
in the source, so the function falls through and zeroes the counter again.
The state carries the emitted (hi, lo) command words and the `wait_intr`
counter that only `__rdp_interrupt` increments. -/

/-- The sync_t enumeration from rdp.h. -/
inductive sync_t | SYNC_FULL | SYNC_PIPE | SYNC_LOAD | SYNC_TILE
  deriving DecidableEq

open sync_t

/-- The state touched by detach: the display list built so far (as pairs of
32-bit words) and the volatile interrupt counter `wait_intr`. -/
structure DetachState where
  dl : List (Nat × Nat)
  wait_intr : Nat
  deriving DecidableEq

/-- The DP interrupt handler `__rdp_interrupt`: increments the (32-bit)
completion counter `wait_intr`. -/
def __rdp_interrupt (st : DetachState) : DetachState :=
  { st with wait_intr := (st.wait_intr + 1) % 4294967296 }

/-- rdp_sync: emit the sync command word selected by the argument. -/
def rdp_sync (dl : List (Nat × Nat)) (s : sync_t) : List (Nat × Nat) :=
  dl ++ [(match s with
          | SYNC_FULL => 0xA9000000
          | SYNC_PIPE => 0xA7000000
          | SYNC_TILE => 0xA8000000
          | SYNC_LOAD => 0xA6000000, 0x00000000)]

/-- rdp_detach_display: set `wait_intr` to 0, emit SYNC_FULL, take the
branch on the interrupt state — whose body, the documented wait loop, is
commented out in the source and therefore empty — and set `wait_intr` to 0
again.  The function never blocks and never reads `wait_intr`. -/
def rdp_detach_display (st : DetachState) (interruptsEnabled : Bool) : DetachState :=
  let st := { st with wait_intr := 0 }
  let st := { st with dl := rdp_sync st.dl SYNC_FULL }
  -- if( INTERRUPTS_ENABLED == get_interrupts_state() ) { /* wait loop commented out */ }
  let st := if interruptsEnabled then st else st
  { st with wait_intr := 0 }

/-! ## The FIFO-room busy wait in rdp_execute_display_list (rdp.c)

`while ((((volatile uint32_t *)0xA4100000)[3] & 0x600)) ;` — the loop polls
the DP status register until the masked bits read zero.  The sequence of
status-register reads is a stream `Nat → Nat`; the loop is embedded with
explicit fuel, returning the index of the first read that reports room, or
`none` when that does not happen within the given fuel. -/

/-- The FIFO poll loop, fuel-indexed: starting with the k-th read, return
the index of the first status read n with `status n &&& 0x600 = 0`. -/
def fifoWaitLoop (status : Nat → Nat) : Nat → Nat → Option Nat
  | 0, _ => none
  | fuel + 1, k =>
      if status k &&& 0x600 ≠ 0 then fifoWaitLoop status fuel (k + 1) else some k

/-- The C busy wait terminates on a given status-read stream iff the
fuel-indexed embedding exits for some finite fuel. -/
def fifoWaitTerminates (status : Nat → Nat) : Prop :=
  ∃ fuel n, fifoWaitLoop status fuel 0 = some n

/-! ## Texture loads and the texture slot cache (rdp.c)

The process-wide state read and written by the texture path: the display
list under construction (emitted (hi, lo) word pairs), the 8-entry slot
cache, the flush strategy, and — so that a no-op really is a no-op — a log
of the cache writeback/invalidate calls issued on sprite data. -/

/-- The cached sprite structure from rdp.c (all fields `uint32_t`). -/
structure sprite_cache where
  s : Nat
  t : Nat
  width : Nat
  height : Nat
  deriving DecidableEq

/-- The flush_t enumeration from rdp.h. -/
inductive flush_t | FLUSH_STRATEGY_NONE | FLUSH_STRATEGY_AUTOMATIC
  deriving DecidableEq

open flush_t

/-- The sprite descriptor consumed by texture loads (the asset-layer
structure: dimensions, bit depth, RDP format fields, slice counts, and the
address of the pixel data). -/
structure sprite_t where
  width : Nat
  height : Nat
  bitdepth : Nat
  format : Nat
  pixel_size : Nat
  hslices : Nat
  vslices : Nat
  data : Nat
  deriving DecidableEq

/-- The mutable state of the rdp.c texture path. -/
structure RdpState where
  dl : List (Nat × Nat)
  cache : Fin 8 → sprite_cache
  flush_strategy : flush_t
  /-- log of `data_cache_hit_writeback_invalidate(addr, len)` calls. -/
  flushed : List (Nat × Nat)

/-- Every slot argument is brought into the cache bounds by the source
mask `texslot & 0x7`. -/
def cacheIndex (slot : Nat) : Fin 8 :=
  ⟨slot &&& 7, Nat.lt_of_le_of_lt Nat.and_le_right (by decide)⟩

/-- The function __rdp_round_to_power from rdp.c. -/
def __rdp_round_to_power (number : Nat) : Nat :=
  if number ≤ 4 then 4
  else if number ≤ 8 then 8
  else if number ≤ 16 then 16
  else if number ≤ 32 then 32
  else if number ≤ 64 then 64
  else if number ≤ 128 then 128
  else 256

/-- The function __rdp_log2 from rdp.c. -/
def __rdp_log2 (number : Nat) : Nat :=
  match number with
  | 4 => 2
  | 8 => 3
  | 16 => 4
  | 32 => 5
  | 64 => 6
  | 128 => 7
  | _ => 8

/-- C `(expr << 2) & 0xFFF` on an `int` operand: the low 12 bits of the
twos-complement pattern of the shifted value. -/
def mask12 (i : Int) : Nat := u32 (i * 4) &&& 0xFFF

/-- The function __rdp_load_texture from rdp.c: flush the sprite data if the strategy
requires it, emit SetTextureImage, SetTile, LoadSync, LoadTile, TileSync,
SetTile again and SetTileSize, update the slot cache entry selected by
`texslot & 0x7`, and return the TMEM consumption.  `sl tl sh th` are C
`int`s. -/
def __rdp_load_texture (st : RdpState) (texslot : Nat) (texloc : Nat)
    (mirror_enabled : Bool) (sprite : sprite_t) (sl tl sh th : Int) :
    RdpState × Nat :=
  let st :=
    if st.flush_strategy = FLUSH_STRATEGY_AUTOMATIC then
      { st with flushed :=
          st.flushed ++ [(sprite.data, sprite.width * sprite.height * sprite.bitdepth)] }
    else st
  -- SetTextureImage
  let st := { st with dl := st.dl ++
      [(0xBD000000 ||| (sprite.format <<< 21) ||| (sprite.pixel_size <<< 19) |||
          (sprite.width - 1),
        u32 (sprite.data : Int))] }
  let twidth : Int := sh - sl + 1
  let theight : Int := th - tl + 1
  let real_width := __rdp_round_to_power (u32 twidth)
  let real_height := __rdp_round_to_power (u32 theight)
  let wbits := __rdp_log2 real_width
  let hbits := __rdp_log2 real_height
  let round_amount := if real_width % 8 ≠ 0 then 1 else 0
  -- SetTile
  let setTileHi := 0xB5000000 ||| (sprite.format <<< 21) ||| (sprite.pixel_size <<< 19) |||
      (((sprite.width / sprite.bitdepth) / 2) <<< 9) ||| ((texloc / 8) &&& 0x1FF)
  let setTileLo := ((texslot &&& 0x7) <<< 24) ||| (if mirror_enabled then 0x40100 else 0) |||
      (hbits <<< 14) ||| (wbits <<< 4)
  let st := { st with dl := st.dl ++ [(setTileHi, setTileLo)] }
  -- LoadSync
  let st := { st with dl := rdp_sync st.dl SYNC_LOAD }
  -- LoadTile
  let st := { st with dl := st.dl ++
      [(0xB4000000 ||| (mask12 sl <<< 12) ||| mask12 tl,
        ((texslot &&& 0x7) <<< 24) ||| (mask12 sh <<< 12) ||| mask12 th)] }
  -- TileSync
  let st := { st with dl := rdp_sync st.dl SYNC_TILE }
  -- SetTile again
  let st := { st with dl := st.dl ++ [(setTileHi, setTileLo)] }
  -- SetTileSize
  let st := { st with dl := st.dl ++
      [(0xB2000000, ((texslot &&& 0x7) <<< 24) ||| (mask12 sh <<< 12) ||| mask12 th)] }
  -- update the slot cache entry
  let newEntry : sprite_cache :=
    { width := u32 (twidth - 1), height := u32 (theight - 1), s := u32 sl, t := u32 tl }
  let st := { st with cache := Function.update st.cache (cacheIndex texslot) newEntry }
  (st, ((real_width / 8) + round_amount) * 8 * real_height * sprite.bitdepth)

/-- rdp_load_texture from rdp.c: a null sprite is a no-op returning 0;
otherwise load the whole sprite. -/
def rdp_load_texture (st : RdpState) (texslot : Nat) (texloc : Nat)
    (mirror_enabled : Bool) (sprite : Option sprite_t) : RdpState × Nat :=
  match sprite with
  | none => (st, 0)
  | some sp =>
      __rdp_load_texture st texslot texloc mirror_enabled sp 0 0
        ((sp.width : Int) - 1) ((sp.height : Int) - 1)

/-- rdp_load_texture_stride from rdp.c: a null sprite is a no-op returning
0; otherwise load the slice selected by `offset`. -/
def rdp_load_texture_stride (st : RdpState) (texslot : Nat) (texloc : Nat)
    (mirror_enabled : Bool) (sprite : Option sprite_t) (offset : Int) :
    RdpState × Nat :=
  match sprite with
  | none => (st, 0)
  | some sp =>
      let twidth : Int := (sp.width / sp.hslices : Nat)
      let theight : Int := (sp.height / sp.vslices : Nat)
      let sl := (offset.tmod (sp.hslices : Int)) * twidth
      let tl := (offset.tdiv (sp.hslices : Int)) * theight
      let sh := sl + twidth - 1
      let th := tl + theight - 1
      __rdp_load_texture st texslot texloc mirror_enabled sp sl tl sh th

/-- rdp_draw_textured_rectangle_scaled from rdp.c, over exact scale
arithmetic: clip negative destination corners while advancing the packed
source coordinates, derive the 6.10 scale factors, and emit the two
textured-rectangle command words. -/
def rdp_draw_textured_rectangle_scaled (dl : List (Nat × Nat)) (texslot : Nat)
    (tx ty bx bty : Int) (x_scale y_scale : ℚ) (s_ul t_ul : Int) :
    List (Nat × Nat) :=
  let s : Nat := u16 s_ul
  let t : Nat := u16 t_ul
  let st' := if tx < 0 then
      (u16 ((s : Int) + ratTrunc (((toInt32 ((-tx) * 32) : Int) : ℚ) * (1 / x_scale))), (0 : Int))
    else (s, tx)
  let s := st'.1
  let tx := st'.2
  let tt' := if ty < 0 then
      (u16 ((t : Int) + ratTrunc (((toInt32 ((-ty) * 32) : Int) : ℚ) * (1 / y_scale))), (0 : Int))
    else (t, ty)
  let t := tt'.1
  let ty := tt'.2
  let xs := ratTrunc ((1 / x_scale) * 1024)
  let ys := ratTrunc ((1 / y_scale) * 1024)
  dl ++ [(0xA4000000 ||| u32 (bx * 16384) ||| u32 (bty * 4),
          ((texslot &&& 0x7) <<< 24) ||| u32 (tx * 16384) ||| u32 (ty * 4)),
         ((s <<< 16) ||| t,
          ((u32 xs &&& 0xFFFF) <<< 16) ||| (u32 ys &&& 0xFFFF))]

/-- rdp_draw_sprite from rdp.c: draw the whole cached texture of the slot
at scale 1, reading the dimensions from the cache entry `texslot & 0x7`.
The C sum of the `int` coordinate and the `uint32_t` cached extent is
performed as a 32-bit conversion, hence the explicit wrap. -/
def rdp_draw_sprite (dl : List (Nat × Nat)) (cache : Fin 8 → sprite_cache)
    (texslot : Nat) (x y : Int) : List (Nat × Nat) :=
  rdp_draw_textured_rectangle_scaled dl texslot x y
    (toInt32 (x + ((cache (cacheIndex texslot)).width : Int)))
    (toInt32 (y + ((cache (cacheIndex texslot)).height : Int)))
    1 1 0 0

/-- rdp_draw_sprite_scaled from rdp.c: resize the rectangle by the scale
factors (rounding half up) before drawing, reading the dimensions from the
cache entry `texslot & 0x7`. -/
def rdp_draw_sprite_scaled (dl : List (Nat × Nat)) (cache : Fin 8 → sprite_cache)
    (texslot : Nat) (x y : Int) (x_scale y_scale : ℚ) : List (Nat × Nat) :=
  let new_width := ratTrunc ((((cache (cacheIndex texslot)).width : ℚ)) * x_scale + 1 / 2)
  let new_height := ratTrunc ((((cache (cacheIndex texslot)).height : ℚ)) * y_scale + 1 / 2)
  rdp_draw_textured_rectangle_scaled dl texslot x y (x + new_width) (y + new_height)
    x_scale y_scale 0 0

/-! ## Triangle setup (rdp.c)

Both triangle functions first sort the three vertices by ascending Y with
three pairwise conditional swaps, then derive the Y boundary fields, the X
start fields, the three guarded inverse slopes and the winding flag, and
emit four 64-bit command words.  The float variant is embedded over `ℚ`;
each C cast of a floating value to `int` is modelled as truncation toward
zero followed by a 32-bit wrap (the conversion is undefined in C outside
the `int` range; every concrete input below stays far inside it). -/

/-- The three pairwise conditional swaps shared by both triangle setup
variants: swap (v1, v2), then (v2, v3), then (v1, v2) whenever the Y
component of the left element is greater. -/
def ysort3 {α β : Type} [LinearOrder β] (v1 v2 v3 : α × β) :
    (α × β) × (α × β) × (α × β) :=
  let a := if v1.2 > v2.2 then v2 else v1
  let b := if v1.2 > v2.2 then v1 else v2
  let b2 := if b.2 > v3.2 then v3 else b
  let c := if b.2 > v3.2 then b else v3
  let a2 := if a.2 > b2.2 then b2 else a
  let b3 := if a.2 > b2.2 then a else b2
  (a2, b3, c)

/-- The Y boundary encoding of the fixed-point triangle variant:
`((y & 0x07FF0000) >> 14) | (y & 0x00000002)` on the 32-bit pattern of the
Q16.16 value.  The subsequent `int16_t` store in the source is the
identity, because the value is at most 0x1FFE. -/
def encFixed (y : Int) : Nat := ((u32 y &&& 0x07FF0000) >>> 14) ||| (u32 y &&& 0x00000002)

/-- One guarded inverse-slope computation of the fixed-point variant:
`(yB == yA) ? 0 : FX_Divide(xB - xA, yB - yA)` with 32-bit differences. -/
def edgeSlopeFixed (xA yA xB yB : Int) : Option Int :=
  if yB = yA then some 0 else FX_DivideChecked (sub32 xB xA) (sub32 yB yA)

/-- Checked exact division, recording that the source evaluates a division
with this divisor. -/
def ratDivChecked (a b : ℚ) : Option ℚ := if b = 0 then none else some (a / b)

/-- One guarded inverse-slope computation of the float variant:
`(yB == yA) ? 0 : ((xB - xA) / (yB - yA)) * 65536.0` cast to `int`. -/
def ratEdgeSlope (xA yA xB yB : ℚ) : Option Int :=
  if yB = yA then some 0
  else (ratDivChecked (xB - xA) (yB - yA)).map fun q => toInt32 (ratTrunc (q * 65536))

/-- The four 64-bit words of an emitted filled-triangle command, split into
32-bit halves in emission order: (flip and Y boundaries), (XL, DxLDy),
(XH, DxHDy), (XM, DxMDy). -/
structure TriWords where
  hi1 : Nat
  lo1 : Nat
  hi2 : Nat
  lo2 : Nat
  hi3 : Nat
  lo3 : Nat
  hi4 : Nat
  lo4 : Nat
  deriving DecidableEq

/-- rdp_draw_filled_triangle_fixed from rdp.c. -/
def rdp_draw_filled_triangle_fixed (x1 y1 x2 y2 x3 y3 : Int) : Option TriWords :=
  match ysort3 (x1, y1) (x2, y2) (x3, y3) with
  | ((x1, y1), (x2, y2), (x3, y3)) =>
    match edgeSlopeFixed x1 y1 x3 y3, edgeSlopeFixed x1 y1 x2 y2,
        edgeSlopeFixed x2 y2 x3 y3 with
    | some dxhdy, some dxmdy, some dxldy =>
      let winding : Int :=
        add32 (add32 (sub32 (FX_Multiply x1 y2) (FX_Multiply x2 y1))
                     (sub32 (FX_Multiply x2 y3) (FX_Multiply x3 y2)))
              (sub32 (FX_Multiply x3 y1) (FX_Multiply x1 y3))
      let flip : Nat := (if winding > 0 then 1 else 0) <<< 23
      some { hi1 := 0x88000000 ||| flip ||| encFixed y3
             lo1 := (encFixed y2 <<< 16) ||| encFixed y1
             hi2 := u32 x2, lo2 := u32 dxldy
             hi3 := u32 x1, lo3 := u32 dxhdy
             hi4 := u32 x1, lo4 := u32 dxmdy }
    | _, _, _ => none

/-- rdp_draw_filled_triangle from rdp.c, over `ℚ`. -/
def rdp_draw_filled_triangle (x1 y1 x2 y2 x3 y3 : ℚ) : Option TriWords :=
  match ysort3 (x1, y1) (x2, y2) (x3, y3) with
  | ((x1, y1), (x2, y2), (x3, y3)) =>
    match ratEdgeSlope x1 y1 x3 y3, ratEdgeSlope x1 y1 x2 y2,
        ratEdgeSlope x2 y2 x3 y3 with
    | some dxhdy, some dxmdy, some dxldy =>
      let yh : Int := toInt32 (ratTrunc (y1 * 4))
      let ym : Int := toInt32 (toInt32 (ratTrunc (y2 * 4)) * 65536)
      let yl : Int := toInt32 (ratTrunc (y3 * 4))
      let xh : Int := toInt32 (ratTrunc (x1 * 65536))
      let xm : Int := toInt32 (ratTrunc (x1 * 65536))
      let xl : Int := toInt32 (ratTrunc (x2 * 65536))
      let winding : Int :=
        toInt32 (ratTrunc ((x1 * y2 - x2 * y1) + (x2 * y3 - x3 * y2) + (x3 * y1 - x1 * y3)))
      let flip : Nat := (if winding > 0 then 1 else 0) <<< 23
      some { hi1 := 0x88000000 ||| flip ||| u32 yl
             lo1 := u32 ym ||| u32 yh
             hi2 := u32 xl, lo2 := u32 dxldy
             hi3 := u32 xh, lo3 := u32 dxhdy
             hi4 := u32 xm, lo4 := u32 dxmdy }
    | _, _, _ => none


/-! ## Supporting lemmas -/

/-- Distributing a mask over a bitwise or. -/
theorem nat_or_and_distrib (a b m : Nat) : (a ||| b) &&& m = (a &&& m) ||| (b &&& m) := by
  apply Nat.eq_of_testBit_eq
  intro i
  simp only [Nat.testBit_and, Nat.testBit_or]
  cases a.testBit i <;> cases b.testBit i <;> cases m.testBit i <;> rfl

/-- Distributing a right shift over a bitwise or. -/
theorem nat_or_shiftRight (a b n : Nat) : (a ||| b) >>> n = (a >>> n) ||| (b >>> n) := by
  apply Nat.eq_of_testBit_eq
  intro i
  simp [Nat.testBit_or, Nat.testBit_shiftRight]

/-- The low 16 bits of a packed pair of 16-bit fields. -/
theorem split16_low (a b : Nat) (hb : b < 65536) : ((a <<< 16) ||| b) &&& 0xFFFF = b := by
  have h16 : (0xFFFF : Nat) = 2 ^ 16 - 1 := by norm_num
  have hb' : b < 2 ^ 16 := by omega
  rw [nat_or_and_distrib, h16, Nat.and_pow_two_sub_one_eq_mod, Nat.and_pow_two_sub_one_eq_mod,
    Nat.shiftLeft_eq, Nat.mul_mod_left, Nat.mod_eq_of_lt hb']
  simp

/-- The high bits of a packed pair of 16-bit fields. -/
theorem split16_high (a b : Nat) (hb : b < 65536) : ((a <<< 16) ||| b) >>> 16 = a := by
  have hb' : b < 2 ^ 16 := by omega
  rw [nat_or_shiftRight, Nat.shiftRight_eq_div_pow, Nat.shiftRight_eq_div_pow,
    Nat.shiftLeft_eq, Nat.div_eq_of_lt hb']
  have h : a * 2 ^ 16 / 2 ^ 16 = a := by omega
  rw [h]
  simp

/-- Each output vertex of the sorting network is one of its input vertices. -/
theorem ysort3_mem {α β : Type} [LinearOrder β] (v1 v2 v3 : α × β) :
    ((ysort3 v1 v2 v3).1 = v1 ∨ (ysort3 v1 v2 v3).1 = v2 ∨ (ysort3 v1 v2 v3).1 = v3) ∧
    ((ysort3 v1 v2 v3).2.1 = v1 ∨ (ysort3 v1 v2 v3).2.1 = v2 ∨ (ysort3 v1 v2 v3).2.1 = v3) ∧
    ((ysort3 v1 v2 v3).2.2 = v1 ∨ (ysort3 v1 v2 v3).2.2 = v2 ∨ (ysort3 v1 v2 v3).2.2 = v3) := by
  simp only [ysort3]
  split_ifs <;> simp

/-- The three conditional swaps sort the Y components ascending
(integer instance). -/
theorem ysort3_sorted_int (v1 v2 v3 : Int × Int) :
    (ysort3 v1 v2 v3).1.2 ≤ (ysort3 v1 v2 v3).2.1.2 ∧
    (ysort3 v1 v2 v3).2.1.2 ≤ (ysort3 v1 v2 v3).2.2.2 := by
  obtain ⟨a1, a2⟩ := v1
  obtain ⟨b1, b2⟩ := v2
  obtain ⟨c1, c2⟩ := v3
  simp only [ysort3]
  split_ifs <;> simp_all <;> omega

/-- The three conditional swaps sort the Y components ascending
(rational instance). -/
theorem ysort3_sorted_rat (v1 v2 v3 : ℚ × ℚ) :
    (ysort3 v1 v2 v3).1.2 ≤ (ysort3 v1 v2 v3).2.1.2 ∧
    (ysort3 v1 v2 v3).2.1.2 ≤ (ysort3 v1 v2 v3).2.2.2 := by
  obtain ⟨a1, a2⟩ := v1
  obtain ⟨b1, b2⟩ := v2
  obtain ⟨c1, c2⟩ := v3
  simp only [ysort3]
  split_ifs <;> constructor <;> simp_all <;> linarith

/-- For values in 32-bit range the wrapped difference vanishes only on
equal operands. -/
theorem sub32_eq_zero_iff {a b : Int} (ha : inRange32 a) (hb : inRange32 b) :
    sub32 a b = 0 ↔ a = b := by
  obtain ⟨ha1, ha2⟩ := ha
  obtain ⟨hb1, hb2⟩ := hb
  unfold sub32 toInt32
  omega

/-- On the always-full status stream the FIFO poll never exits. -/
theorem fifoWaitLoop_const_full (fuel k : Nat) :
    fifoWaitLoop (fun _ => 0x600) fuel k = none := by
  induction fuel generalizing k with
  | zero => rfl
  | succ f ih =>
      simp only [fifoWaitLoop]
      rw [if_pos (by decide)]
      exact ih (k + 1)

/-- If some status read within the fuel window reports room, the FIFO poll
exits. -/
theorem fifoWaitLoop_reaches (status : Nat → Nat) :
    ∀ (fuel k : Nat), (∃ m, k ≤ m ∧ m < k + fuel ∧ status m &&& 0x600 = 0) →
      ∃ n, fifoWaitLoop status fuel k = some n := by
  intro fuel
  induction fuel with
  | zero =>
      rintro k ⟨m, h1, h2, _⟩
      omega
  | succ f ih =>
      rintro k ⟨m, h1, h2, h3⟩
      by_cases hc : status k &&& 0x600 = 0
      · exact ⟨k, by simp [fifoWaitLoop, hc]⟩
      · have hm : k ≠ m := fun e => hc (e ▸ h3)
        obtain ⟨n, hn⟩ := ih (k + 1) ⟨m, by omega, by omega, h3⟩
        exact ⟨n, by simp only [fifoWaitLoop]; rw [if_pos hc]; exact hn⟩

/-- A successful FIFO poll exits exactly at the first status read that
reports room. -/
theorem fifoWaitLoop_some (status : Nat → Nat) :
    ∀ (fuel k n : Nat), fifoWaitLoop status fuel k = some n →
      status n &&& 0x600 = 0 ∧ k ≤ n ∧ ∀ m, k ≤ m → m < n → status m &&& 0x600 ≠ 0 := by
  intro fuel
  induction fuel with
  | zero => intro k n h; exact absurd h (by simp [fifoWaitLoop])
  | succ f ih =>
      intro k n h
      simp only [fifoWaitLoop] at h
      by_cases hc : status k &&& 0x600 = 0
      · rw [if_neg (by simpa using hc)] at h
        obtain rfl : k = n := by simpa using h
        exact ⟨hc, le_refl _, fun m h1 h2 => absurd (le_antisymm h1 (by omega)) (by omega)⟩
      · rw [if_pos hc] at h
        obtain ⟨h0, h1, h2⟩ := ih (k + 1) n h
        refine ⟨h0, by omega, fun m hm1 hm2 => ?_⟩
        rcases Nat.eq_or_lt_of_le hm1 with rfl | hlt
        · exact hc
        · exact h2 m hlt hm2

/-! ## Claim theorems -/

/-- C1: the sentinel appended by rdp_end_display_list is 0x7FFFFFFFFFFFFFFF,
but the forward scan of rdp_execute_display_list stops only at
0xFFFFFFFFFFFFFFFF.  On the finalized one-command list the scan therefore
runs past the end of the buffer (no index is found inside it), and with
bytes beyond the sentinel it counts whatever lies there: here 3 instead of
the claimed length 1.  This evaluates the code at the failing input. -/
theorem claim_C1_sentinel_mismatch :
    rdp_execute_scan (rdp_end_display_list [0xB900000000FF00FF]) = none ∧
    rdp_execute_scan (rdp_end_display_list [0xB900000000FF00FF] ++
      [0xB700000000000000, 0xFFFFFFFFFFFFFFFF]) = some 3 := by
  constructor <;> decide

/-- C2: rdp_detach_display returns immediately: for every starting state
and either interrupt setting it emits the SYNC_FULL word and finishes with
the completion counter reset to 0 — it never waits for the counter
incremented by __rdp_interrupt to exceed its pre-detach value, because the
wait loop in the source is commented out. -/
theorem claim_C2_detach_returns_immediately :
    ∀ (st : DetachState) (interruptsEnabled : Bool),
      rdp_detach_display st interruptsEnabled =
        { dl := st.dl ++ [(0xA9000000, 0x00000000)], wait_intr := 0 } := by
  intro st b
  cases b <;> rfl

/-- C5 counterexample: the input 32768, which is at the claimed saturation
boundary, is not saturated to 0x7FFFFFFF: the strict comparison lets it
wrap to 0x80000000 (= -2147483648). -/
theorem claim_C5_counterexample :
    FX_FromInt 32768 = -0x80000000 ∧ FX_FromInt 32768 ≠ 0x7FFFFFFF := by
  constructor <;> decide

/-- C5 amended: both conversions saturate only for inputs strictly beyond
±32768; the boundary input 32768 itself wraps to 0x80000000, and -32768
maps to 0x80000000 because it is exactly representable. -/
theorem claim_C5_amended :
    (∀ f : Int, 32768 < f → FX_FromInt f = 0x7FFFFFFF) ∧
    (∀ f : Int, f < -32768 → FX_FromInt f = -0x80000000) ∧
    (∀ f : ℚ, 32768 < f → FX_FromFloat f = 0x7FFFFFFF) ∧
    (∀ f : ℚ, f < -32768 → FX_FromFloat f = -0x80000000) ∧
    FX_FromInt 32768 = -0x80000000 ∧
    FX_FromInt (-32768) = -0x80000000 ∧
    FX_FromFloat 32768 = -0x80000000 := by
  refine ⟨?_, ?_, ?_, ?_, by decide, by decide, ?_⟩
  · intro f hf
    simp only [FX_FromInt]
    rw [if_neg (by omega), if_pos hf]
  · intro f hf
    simp only [FX_FromInt]
    rw [if_pos hf]
  · intro f hf
    simp only [FX_FromFloat]
    rw [if_neg (by linarith), if_pos hf]
  · intro f hf
    simp only [FX_FromFloat]
    rw [if_pos hf]
  · norm_num [FX_FromFloat, ratTrunc]
    decide

/-- C5 amended, witness: the saturation branch taken at the concrete input
40000. -/
theorem claim_C5_amended_witness :
    32768 < (40000 : Int) ∧ FX_FromInt 40000 = 0x7FFFFFFF :=
  ⟨by decide, claim_C5_amended.1 40000 (by decide)⟩

/-- C9: a null sprite makes both texture-load entry points a no-op
returning 0: the display list, cursor, slot cache, flush strategy and
flush log are all left untouched. -/
theorem claim_C9_null_sprite_noop :
    ∀ (st : RdpState) (texslot texloc : Nat) (mirror : Bool) (offset : Int),
      rdp_load_texture st texslot texloc mirror none = (st, 0) ∧
      rdp_load_texture_stride st texslot texloc mirror none offset = (st, 0) := by
  intro st texslot texloc mirror offset
  exact ⟨rfl, rfl⟩

/-- C8 counterexample: on a status stream that always reports the FIFO
full, the busy wait of rdp_execute_display_list never terminates — there
is no iteration ceiling and no sentinel failure code (the function returns
void). -/
theorem claim_C8_counterexample : ¬ fifoWaitTerminates (fun _ => 0x600) := by
  rintro ⟨fuel, n, h⟩
  rw [fifoWaitLoop_const_full] at h
  exact Option.noConfusion h

/-- C8 amended: the poll is unbounded: it exits exactly at the first
status read whose masked bits are clear, it terminates whenever such a
read exists, and on the always-full stream it never terminates; no failure
code is produced. -/
theorem claim_C8_amended :
    (∀ (status : Nat → Nat) (fuel k n : Nat),
        fifoWaitLoop status fuel k = some n →
          status n &&& 0x600 = 0 ∧ k ≤ n ∧ ∀ m, k ≤ m → m < n → status m &&& 0x600 ≠ 0) ∧
    (∀ status : Nat → Nat, (∃ n, status n &&& 0x600 = 0) → fifoWaitTerminates status) ∧
    ¬ fifoWaitTerminates (fun _ => 0x600) := by
  refine ⟨fifoWaitLoop_some, ?_, ?_⟩
  · rintro status ⟨n, hn⟩
    obtain ⟨m, hm⟩ := fifoWaitLoop_reaches status (n + 1) 0 ⟨n, Nat.zero_le n, by omega, hn⟩
    exact ⟨n + 1, m, hm⟩
  · rintro ⟨fuel, n, h⟩
    rw [fifoWaitLoop_const_full] at h
    exact Option.noConfusion h

/-- C8 amended, witness: a poll that sees room on its first read exits at
index 0, whose masked status bits are clear. -/
theorem claim_C8_amended_witness :
    (fun _ => (0 : Nat)) 0 &&& 0x600 = 0 :=
  (claim_C8_amended.1 (fun _ => 0) 1 0 0 rfl).1

set_option maxHeartbeats 4000000

/-- C3 counterexample: the vertices (0,0), (10,0), (0,10) — as Q16.16 in
the fixed variant and as floats in the float variant — produce a primitive
command word whose flip bit (bit 23 of the first word) is 1, not the
claimed 0. -/
theorem claim_C3_counterexample :
    (rdp_draw_filled_triangle_fixed 0 0 655360 0 0 655360).map
        (fun w => (w.hi1 >>> 23) &&& 1) = some 1 ∧
    (rdp_draw_filled_triangle 0 0 10 0 0 10).map
        (fun w => (w.hi1 >>> 23) &&& 1) = some 1 := by
  constructor
  · decide
  · have h : ysort3 ((0:ℚ),(0:ℚ)) (10,0) (0,10) = ((0,0),(10,0),(0,10)) := by
      simp only [ysort3]; norm_num
    rw [rdp_draw_filled_triangle, h]
    simp only [ratEdgeSlope, ratDivChecked, ratTrunc]
    norm_num
    decide

/-- C3 amended: both vertex orders yield flip = 1 in both variants: the
winding is computed from the vertices after the Y sort, both inputs sort
to the same vertex sequence, and its shoelace sum is positive. -/
theorem claim_C3_amended :
    (rdp_draw_filled_triangle_fixed 0 0 655360 0 0 655360).map
        (fun w => (w.hi1 >>> 23) &&& 1) = some 1 ∧
    (rdp_draw_filled_triangle_fixed 0 0 0 655360 655360 0).map
        (fun w => (w.hi1 >>> 23) &&& 1) = some 1 ∧
    (rdp_draw_filled_triangle 0 0 10 0 0 10).map
        (fun w => (w.hi1 >>> 23) &&& 1) = some 1 ∧
    (rdp_draw_filled_triangle 0 0 0 10 10 0).map
        (fun w => (w.hi1 >>> 23) &&& 1) = some 1 := by
  refine ⟨by decide, by decide, ?_, ?_⟩
  · have h : ysort3 ((0:ℚ),(0:ℚ)) (10,0) (0,10) = ((0,0),(10,0),(0,10)) := by
      simp only [ysort3]; norm_num
    rw [rdp_draw_filled_triangle, h]
    simp only [ratEdgeSlope, ratDivChecked, ratTrunc]
    norm_num
    decide
  · have h : ysort3 ((0:ℚ),(0:ℚ)) (0,10) (10,0) = ((0,0),(10,0),(0,10)) := by
      simp only [ysort3]; norm_num
    rw [rdp_draw_filled_triangle, h]
    simp only [ratEdgeSlope, ratDivChecked, ratTrunc]
    norm_num
    decide

/-- C10: every cache access site first masks the slot with 0x7 — the
masked index is the slot modulo 8 and hence in bounds; a texture load
overwrites exactly the entry at that index (with the loaded window) and no
other entry; and both sprite-draw operations read only that entry, so two
cache states agreeing there produce identical output. -/
theorem claim_C10_slot_masking :
    (∀ slot : Nat, (cacheIndex slot).val = slot % 8) ∧
    (∀ (st : RdpState) (texslot texloc : Nat) (mirror : Bool) (sp : sprite_t)
        (sl tl sh th : Int),
      ((__rdp_load_texture st texslot texloc mirror sp sl tl sh th).1.cache
          (cacheIndex texslot) =
        { s := u32 sl, t := u32 tl, width := u32 (sh - sl + 1 - 1),
          height := u32 (th - tl + 1 - 1) }) ∧
      (∀ i : Fin 8, i ≠ cacheIndex texslot →
        (__rdp_load_texture st texslot texloc mirror sp sl tl sh th).1.cache i =
          st.cache i)) ∧
    (∀ (dl : List (Nat × Nat)) (c c2 : Fin 8 → sprite_cache) (slot : Nat) (x y : Int),
      c (cacheIndex slot) = c2 (cacheIndex slot) →
        rdp_draw_sprite dl c slot x y = rdp_draw_sprite dl c2 slot x y) ∧
    (∀ (dl : List (Nat × Nat)) (c c2 : Fin 8 → sprite_cache) (slot : Nat) (x y : Int)
        (xsc ysc : ℚ),
      c (cacheIndex slot) = c2 (cacheIndex slot) →
        rdp_draw_sprite_scaled dl c slot x y xsc ysc =
          rdp_draw_sprite_scaled dl c2 slot x y xsc ysc) := by
  refine ⟨?_, ?_, ?_, ?_⟩
  · intro slot
    have h := Nat.and_pow_two_sub_one_eq_mod slot 3
    norm_num at h
    simpa [cacheIndex] using h
  · intro st texslot texloc mirror sp sl tl sh th
    constructor
    · simp only [__rdp_load_texture]
      split_ifs <;> simp [Function.update]
    · intro i hi
      simp only [__rdp_load_texture]
      split_ifs <;> simp [Function.update, hi]
  · intro dl c c2 slot x y h
    simp only [rdp_draw_sprite]
    rw [h]
  · intro dl c c2 slot x y xsc ysc h
    simp only [rdp_draw_sprite_scaled]
    rw [h]

/-- C10 witness: the out-of-range slot 9 masks to index 1, so entry 0 of a
concrete state survives a load into slot 9 unchanged. -/
theorem claim_C10_witness :
    ((0 : Fin 8) ≠ cacheIndex 9) ∧
    (__rdp_load_texture
        { dl := [], cache := fun _ => ⟨1, 2, 3, 4⟩,
          flush_strategy := flush_t.FLUSH_STRATEGY_NONE, flushed := [] }
        9 0 false ⟨8, 8, 2, 0, 2, 1, 1, 0⟩ 0 0 7 7).1.cache 0 = ⟨1, 2, 3, 4⟩ :=
  ⟨by decide,
    (claim_C10_slot_masking.2.1
        { dl := [], cache := fun _ => ⟨1, 2, 3, 4⟩,
          flush_strategy := flush_t.FLUSH_STRATEGY_NONE, flushed := [] }
        9 0 false ⟨8, 8, 2, 0, 2, 1, 1, 0⟩ 0 0 7 7).2 0 (by decide)⟩

/-- A guarded fixed-point inverse slope always evaluates (the divisor is
nonzero whenever FX_Divide is reached) and is zero on a degenerate edge. -/
theorem edgeSlopeFixed_some {xA yA xB yB : Int} (hA : inRange32 yA) (hB : inRange32 yB) :
    ∃ v, edgeSlopeFixed xA yA xB yB = some v ∧ (yB = yA → v = 0) := by
  by_cases h : yB = yA
  · exact ⟨0, by simp [edgeSlopeFixed, h], fun _ => rfl⟩
  · refine ⟨FX_Divide (sub32 xB xA) (sub32 yB yA), ?_, fun hc => absurd hc h⟩
    have hz : sub32 yB yA ≠ 0 := fun hz => h ((sub32_eq_zero_iff hB hA).mp hz)
    simp [edgeSlopeFixed, h, FX_DivideChecked, hz]

/-- A guarded float inverse slope always evaluates and is zero on a
degenerate edge. -/
theorem ratEdgeSlope_some (xA yA xB yB : ℚ) :
    ∃ v, ratEdgeSlope xA yA xB yB = some v ∧ (yB = yA → v = 0) := by
  by_cases h : yB = yA
  · exact ⟨0, by simp [ratEdgeSlope, h], fun _ => rfl⟩
  · have hz : yB - yA ≠ 0 := sub_ne_zero_of_ne h
    exact ⟨toInt32 (ratTrunc ((xB - xA) / (yB - yA) * 65536)),
      by simp [ratEdgeSlope, h, ratDivChecked, hz], fun hc => absurd hc h⟩

/-- C7: in both triangle variants every inverse slope is guarded: setup
always completes (no division is evaluated with a zero divisor — the
checked divisions all succeed), and whenever the two sorted Y values of an
edge coincide the emitted slope word of that edge (lo3 for edge 1-3, lo4
for edge 1-2, lo2 for edge 2-3) is exactly 0. -/
theorem claim_C7_slope_guards :
    (∀ x1 y1 x2 y2 x3 y3 : Int,
      inRange32 y1 → inRange32 y2 → inRange32 y3 →
      (rdp_draw_filled_triangle_fixed x1 y1 x2 y2 x3 y3).isSome ∧
      ((ysort3 (x1,y1) (x2,y2) (x3,y3)).2.2.2 = (ysort3 (x1,y1) (x2,y2) (x3,y3)).1.2 →
        (rdp_draw_filled_triangle_fixed x1 y1 x2 y2 x3 y3).map TriWords.lo3 = some 0) ∧
      ((ysort3 (x1,y1) (x2,y2) (x3,y3)).2.1.2 = (ysort3 (x1,y1) (x2,y2) (x3,y3)).1.2 →
        (rdp_draw_filled_triangle_fixed x1 y1 x2 y2 x3 y3).map TriWords.lo4 = some 0) ∧
      ((ysort3 (x1,y1) (x2,y2) (x3,y3)).2.2.2 = (ysort3 (x1,y1) (x2,y2) (x3,y3)).2.1.2 →
        (rdp_draw_filled_triangle_fixed x1 y1 x2 y2 x3 y3).map TriWords.lo2 = some 0)) ∧
    (∀ x1 y1 x2 y2 x3 y3 : ℚ,
      (rdp_draw_filled_triangle x1 y1 x2 y2 x3 y3).isSome ∧
      ((ysort3 (x1,y1) (x2,y2) (x3,y3)).2.2.2 = (ysort3 (x1,y1) (x2,y2) (x3,y3)).1.2 →
        (rdp_draw_filled_triangle x1 y1 x2 y2 x3 y3).map TriWords.lo3 = some 0) ∧
      ((ysort3 (x1,y1) (x2,y2) (x3,y3)).2.1.2 = (ysort3 (x1,y1) (x2,y2) (x3,y3)).1.2 →
        (rdp_draw_filled_triangle x1 y1 x2 y2 x3 y3).map TriWords.lo4 = some 0) ∧
      ((ysort3 (x1,y1) (x2,y2) (x3,y3)).2.2.2 = (ysort3 (x1,y1) (x2,y2) (x3,y3)).2.1.2 →
        (rdp_draw_filled_triangle x1 y1 x2 y2 x3 y3).map TriWords.lo2 = some 0)) := by
  constructor
  · intro x1 y1 x2 y2 x3 y3 h1 h2 h3
    have hmem := ysort3_mem (x1,y1) (x2,y2) (x3,y3)
    rcases hs : ysort3 (x1,y1) (x2,y2) (x3,y3) with ⟨⟨a,b⟩,⟨c,d⟩,⟨e,f⟩⟩
    rw [hs] at hmem
    have hb : inRange32 b := by
      rcases hmem.1 with h | h | h <;>
        (have hsnd := congrArg Prod.snd h; simp at hsnd; subst hsnd; assumption)
    have hd : inRange32 d := by
      rcases hmem.2.1 with h | h | h <;>
        (have hsnd := congrArg Prod.snd h; simp at hsnd; subst hsnd; assumption)
    have hf : inRange32 f := by
      rcases hmem.2.2 with h | h | h <;>
        (have hsnd := congrArg Prod.snd h; simp at hsnd; subst hsnd; assumption)
    obtain ⟨v1, hv1, hz1⟩ := @edgeSlopeFixed_some a b e f hb hf
    obtain ⟨v2, hv2, hz2⟩ := @edgeSlopeFixed_some a b c d hb hd
    obtain ⟨v3, hv3, hz3⟩ := @edgeSlopeFixed_some c d e f hd hf
    refine ⟨?_, ?_, ?_, ?_⟩
    · simp [rdp_draw_filled_triangle_fixed, hs, hv1, hv2, hv3]
    · intro hyz
      simp only at hyz
      simp [rdp_draw_filled_triangle_fixed, hs, hv1, hv2, hv3, hz1 hyz, u32]
    · intro hyz
      simp only at hyz
      simp [rdp_draw_filled_triangle_fixed, hs, hv1, hv2, hv3, hz2 hyz, u32]
    · intro hyz
      simp only at hyz
      simp [rdp_draw_filled_triangle_fixed, hs, hv1, hv2, hv3, hz3 hyz, u32]
  · intro x1 y1 x2 y2 x3 y3
    rcases hs : ysort3 (x1,y1) (x2,y2) (x3,y3) with ⟨⟨a,b⟩,⟨c,d⟩,⟨e,f⟩⟩
    obtain ⟨v1, hv1, hz1⟩ := ratEdgeSlope_some a b e f
    obtain ⟨v2, hv2, hz2⟩ := ratEdgeSlope_some a b c d
    obtain ⟨v3, hv3, hz3⟩ := ratEdgeSlope_some c d e f
    refine ⟨?_, ?_, ?_, ?_⟩
    · simp [rdp_draw_filled_triangle, hs, hv1, hv2, hv3]
    · intro hyz
      simp only at hyz
      simp [rdp_draw_filled_triangle, hs, hv1, hv2, hv3, hz1 hyz, u32]
    · intro hyz
      simp only at hyz
      simp [rdp_draw_filled_triangle, hs, hv1, hv2, hv3, hz2 hyz, u32]
    · intro hyz
      simp only at hyz
      simp [rdp_draw_filled_triangle, hs, hv1, hv2, hv3, hz3 hyz, u32]

/-- C7 witness: the guards hold at the concrete triangle
(0,0), (10,0), (0,10) in Q16.16, whose setup completes. -/
theorem claim_C7_witness :
    inRange32 (0 : Int) ∧ inRange32 (655360 : Int) ∧
    (rdp_draw_filled_triangle_fixed 0 0 655360 0 0 655360).isSome :=
  ⟨by decide, by decide,
    (claim_C7_slope_guards.1 0 0 655360 0 0 655360 (by decide) (by decide) (by decide)).1⟩

/-- Shifting left distributes over a bitwise and. -/
theorem nat_shiftLeft_and (a b k : Nat) : (a <<< k) &&& (b <<< k) = (a &&& b) <<< k := by
  apply Nat.eq_of_testBit_eq
  intro i
  simp only [Nat.testBit_and, Nat.testBit_shiftLeft]
  cases h : decide (i ≥ k) <;> simp

/-- Bit 1 of a value shifted left by 16 is clear. -/
theorem shifted_and_two (m : Nat) : (m <<< 16) &&& 2 = 0 := by
  have h := Nat.and_two_pow (m <<< 16) 1
  norm_num at h
  exact h

/-- The fixed-variant Y encoding always fits in 14 bits. -/
theorem encFixed_lt (y : Int) : encFixed y < 16384 := by
  unfold encFixed
  have h14 : (16384 : Nat) = 2 ^ 14 := by norm_num
  rw [h14]
  apply Nat.or_lt_two_pow
  · rw [Nat.shiftRight_eq_div_pow]
    have := @Nat.and_le_right (u32 y) 0x07FF0000
    omega
  · have := @Nat.and_le_right (u32 y) 2
    omega

/-- Extracting the low Y boundary field from the first triangle word. -/
theorem hi1_mask (t e : Nat) (ht : t ≤ 1) (he : e < 16384) :
    (0x88000000 ||| (t <<< 23) ||| e) &&& 0x3FFF = e := by
  rw [nat_or_and_distrib, nat_or_and_distrib]
  have h1 : (0x88000000 : Nat) &&& 0x3FFF = 0 := by decide
  have h2 : (t <<< 23) &&& 0x3FFF = 0 := by
    interval_cases t <;> decide
  have h3 : e &&& 0x3FFF = e := by
    have hm : (0x3FFF : Nat) = 2 ^ 14 - 1 := by norm_num
    rw [hm, Nat.and_pow_two_sub_one_eq_mod, Nat.mod_eq_of_lt (by omega)]
  rw [h1, h2, h3]
  simp

/-- The 32-bit wrap is the identity on representable values. -/
theorem toInt32_eq_self {i : Int} (h1 : -2147483648 ≤ i) (h2 : i < 2147483648) :
    toInt32 i = i := by
  unfold toInt32
  omega

/-- The 32-bit pattern of a small nonnegative value is the value itself. -/
theorem u32_small {i : Int} (h1 : 0 ≤ i) (h2 : i < 4294967296) : u32 i = i.toNat := by
  unfold u32
  rw [Int.emod_eq_of_lt h1 h2]

/-- On nonnegative rationals truncation toward zero is the floor. -/
theorem ratTrunc_eq_floor {q : ℚ} (hq : 0 ≤ q) : ratTrunc q = ⌊q⌋ := by
  unfold ratTrunc
  rw [Int.tdiv_eq_ediv (Rat.num_nonneg.mpr hq) (by positivity)]
  exact Rat.floor_def.symm

/-- The truncated 11.2 encoding of a Y value in [0, 2047] lies in
[0, 8188]. -/
theorem ratTrunc_y_bounds {y : ℚ} (h1 : 0 ≤ y) (h2 : y ≤ 2047) :
    0 ≤ ratTrunc (y * 4) ∧ ratTrunc (y * 4) ≤ 8188 := by
  have hq : (0:ℚ) ≤ y * 4 := by linarith
  rw [ratTrunc_eq_floor hq]
  constructor
  · exact Int.floor_nonneg.mpr hq
  · have hle : (⌊y * 4⌋ : ℚ) ≤ y * 4 := Int.floor_le _
    have : (⌊y * 4⌋ : ℚ) ≤ 8188 := by linarith
    exact_mod_cast this

/-- On integer-valued Q16.16 inputs in [0, 2047] the fixed-variant Y
encoding agrees with the 11.2 encoding (multiply by 4, truncate). -/
theorem encFixed_integral (n : Nat) (h : n < 2048) :
    (encFixed (65536 * (n : Int)) : Int) = (4 * (65536 * (n : Int))).fdiv 65536 := by
  have hu : u32 (65536 * (n : Int)) = 65536 * n := by
    unfold u32
    have h1 : (0:Int) ≤ 65536 * (n : Int) := by positivity
    have h2 : (65536 : Int) * (n : Int) < 4294967296 := by
      have : (n : Int) < 2048 := by exact_mod_cast h
      nlinarith
    rw [Int.emod_eq_of_lt h1 h2]
    omega
  unfold encFixed
  rw [hu]
  have e1 : (65536 * n) &&& 0x07FF0000 = n <<< 16 := by
    have hm : (0x07FF0000 : Nat) = 0x7FF <<< 16 := by decide
    have hs : (65536 * n : Nat) = n <<< 16 := by rw [Nat.shiftLeft_eq]; ring
    rw [hs, hm, nat_shiftLeft_and]
    congr 1
    have : (0x7FF : Nat) = 2 ^ 11 - 1 := by norm_num
    rw [this, Nat.and_pow_two_sub_one_eq_mod, Nat.mod_eq_of_lt (by omega)]
  have e2 : (65536 * n) &&& 2 = 0 := by
    have hs : (65536 * n : Nat) = n <<< 16 := by rw [Nat.shiftLeft_eq]; ring
    rw [hs, shifted_and_two]
  rw [e1, e2]
  have e3 : (n <<< 16) >>> 14 = 4 * n := by
    rw [Nat.shiftLeft_eq, Nat.shiftRight_eq_div_pow]
    omega
  rw [e3]
  simp only [Nat.or_zero]
  rw [Int.fdiv_eq_ediv _ (by norm_num)]
  omega

/-- The Y boundary fields of a fixed-variant triangle command hold the
encodings of the sorted Y values: YH (low half of the second word) from
the smallest, YM (high half of the second word) from the middle, YL (low
14 bits of the first word) from the largest. -/
theorem triFixed_y_fields :
    ∀ (x1 y1 x2 y2 x3 y3 : Int) (w : TriWords),
      rdp_draw_filled_triangle_fixed x1 y1 x2 y2 x3 y3 = some w →
      w.lo1 &&& 0xFFFF = encFixed (ysort3 (x1,y1) (x2,y2) (x3,y3)).1.2 ∧
      w.lo1 >>> 16 = encFixed (ysort3 (x1,y1) (x2,y2) (x3,y3)).2.1.2 ∧
      w.hi1 &&& 0x3FFF = encFixed (ysort3 (x1,y1) (x2,y2) (x3,y3)).2.2.2 := by
  intro x1 y1 x2 y2 x3 y3 w hw
  rcases hs : ysort3 (x1,y1) (x2,y2) (x3,y3) with ⟨⟨a,b⟩,⟨c,d⟩,⟨e,f⟩⟩
  dsimp only
  simp only [rdp_draw_filled_triangle_fixed, hs] at hw
  rcases h1 : edgeSlopeFixed a b e f with _ | v1
  · rw [h1] at hw; simp at hw
  rcases h2 : edgeSlopeFixed a b c d with _ | v2
  · rw [h1, h2] at hw; simp at hw
  rcases h3 : edgeSlopeFixed c d e f with _ | v3
  · rw [h1, h2, h3] at hw; simp at hw
  rw [h1, h2, h3] at hw
  simp only [Option.some.injEq] at hw
  subst hw
  refine ⟨?_, ?_, ?_⟩
  · exact split16_low _ _ (by have := encFixed_lt b; omega)
  · exact split16_high _ _ (by have := encFixed_lt b; omega)
  · exact hi1_mask _ _ (by split_ifs <;> omega) (encFixed_lt f)

/-- The Y boundary fields of a float-variant triangle command hold the
11.2 truncations of the sorted Y values, for Y values in [0, 2047]. -/
theorem triFloat_y_fields :
    ∀ (x1 y1 x2 y2 x3 y3 : ℚ) (w : TriWords),
      0 ≤ y1 → y1 ≤ 2047 → 0 ≤ y2 → y2 ≤ 2047 → 0 ≤ y3 → y3 ≤ 2047 →
      rdp_draw_filled_triangle x1 y1 x2 y2 x3 y3 = some w →
      w.lo1 &&& 0xFFFF = (ratTrunc ((ysort3 (x1,y1) (x2,y2) (x3,y3)).1.2 * 4)).toNat ∧
      w.lo1 >>> 16 = (ratTrunc ((ysort3 (x1,y1) (x2,y2) (x3,y3)).2.1.2 * 4)).toNat ∧
      w.hi1 &&& 0x3FFF = (ratTrunc ((ysort3 (x1,y1) (x2,y2) (x3,y3)).2.2.2 * 4)).toNat := by
  intro x1 y1 x2 y2 x3 y3 w hy1a hy1b hy2a hy2b hy3a hy3b hw
  have hmem := ysort3_mem (x1,y1) (x2,y2) (x3,y3)
  rcases hs : ysort3 (x1,y1) (x2,y2) (x3,y3) with ⟨⟨a,b⟩,⟨c,d⟩,⟨e,f⟩⟩
  rw [hs] at hmem
  dsimp only
  have hb : 0 ≤ b ∧ b ≤ 2047 := by
    rcases hmem.1 with h | h | h <;>
      (have hsnd := congrArg Prod.snd h; simp at hsnd; subst hsnd;
       exact ⟨by assumption, by assumption⟩)
  have hd : 0 ≤ d ∧ d ≤ 2047 := by
    rcases hmem.2.1 with h | h | h <;>
      (have hsnd := congrArg Prod.snd h; simp at hsnd; subst hsnd;
       exact ⟨by assumption, by assumption⟩)
  have hf : 0 ≤ f ∧ f ≤ 2047 := by
    rcases hmem.2.2 with h | h | h <;>
      (have hsnd := congrArg Prod.snd h; simp at hsnd; subst hsnd;
       exact ⟨by assumption, by assumption⟩)
  obtain ⟨hr1a, hr1b⟩ := ratTrunc_y_bounds hb.1 hb.2
  obtain ⟨hr2a, hr2b⟩ := ratTrunc_y_bounds hd.1 hd.2
  obtain ⟨hr3a, hr3b⟩ := ratTrunc_y_bounds hf.1 hf.2
  simp only [rdp_draw_filled_triangle, hs] at hw
  rcases h1 : ratEdgeSlope a b e f with _ | v1
  · rw [h1] at hw; simp at hw
  rcases h2 : ratEdgeSlope a b c d with _ | v2
  · rw [h1, h2] at hw; simp at hw
  rcases h3 : ratEdgeSlope c d e f with _ | v3
  · rw [h1, h2, h3] at hw; simp at hw
  rw [h1, h2, h3] at hw
  simp only [Option.some.injEq] at hw
  subst hw
  have e1 : toInt32 (ratTrunc (b * 4)) = ratTrunc (b * 4) :=
    toInt32_eq_self (by omega) (by omega)
  have e2 : toInt32 (ratTrunc (d * 4)) = ratTrunc (d * 4) :=
    toInt32_eq_self (by omega) (by omega)
  have e3 : toInt32 (ratTrunc (f * 4)) = ratTrunc (f * 4) :=
    toInt32_eq_self (by omega) (by omega)
  have eym : toInt32 (toInt32 (ratTrunc (d * 4)) * 65536) = ratTrunc (d * 4) * 65536 := by
    rw [e2]; exact toInt32_eq_self (by omega) (by omega)
  have hu1 : u32 (toInt32 (ratTrunc (b * 4))) = (ratTrunc (b * 4)).toNat := by
    rw [e1]; exact u32_small (by omega) (by omega)
  have hu3 : u32 (toInt32 (ratTrunc (f * 4))) = (ratTrunc (f * 4)).toNat := by
    rw [e3]; exact u32_small (by omega) (by omega)
  have hu2 : u32 (toInt32 (toInt32 (ratTrunc (d * 4)) * 65536)) =
      (ratTrunc (d * 4)).toNat <<< 16 := by
    rw [eym, u32_small (by omega) (by omega), Nat.shiftLeft_eq]
    omega
  refine ⟨?_, ?_, ?_⟩
  · rw [hu1, hu2]
    exact split16_low _ _ (by omega)
  · rw [hu1, hu2]
    exact split16_high _ _ (by omega)
  · rw [hu3]
    exact hi1_mask _ _ (by split_ifs <;> omega) (by omega)

/-- C6 counterexample: the degenerate triangle with all three Y equal to
0.5 (0x8000 in Q16.16) emits YH field 0 in the fixed variant, while the
11.2 encoding of 0.5 (multiply by 4, truncate) is 2. -/
theorem claim_C6_counterexample :
    (rdp_draw_filled_triangle_fixed 0 0x8000 65536 0x8000 131072 0x8000).map
      (fun w => w.lo1 &&& 0xFFFF) = some 0 ∧ ((4 * 0x8000 : Int).fdiv 65536) = 2 := by
  constructor <;> decide

/-- C6 amended: in both variants the three conditional swaps sort Y
ascending, and the high/mid/low Y boundary fields receive the encodings of
the sorted Y1, Y2, Y3 in that order; the float variant encodes by
multiplying by 4 and truncating, while the fixed variant uses
((y & 0x07FF0000) >> 14) | (y & 2), which agrees with the 11.2 encoding
exactly on integer-valued Y in [0, 2047]. -/
theorem claim_C6_amended :
    (∀ v1 v2 v3 : Int × Int,
      (ysort3 v1 v2 v3).1.2 ≤ (ysort3 v1 v2 v3).2.1.2 ∧
      (ysort3 v1 v2 v3).2.1.2 ≤ (ysort3 v1 v2 v3).2.2.2) ∧
    (∀ v1 v2 v3 : ℚ × ℚ,
      (ysort3 v1 v2 v3).1.2 ≤ (ysort3 v1 v2 v3).2.1.2 ∧
      (ysort3 v1 v2 v3).2.1.2 ≤ (ysort3 v1 v2 v3).2.2.2) ∧
    (∀ (x1 y1 x2 y2 x3 y3 : Int) (w : TriWords),
      rdp_draw_filled_triangle_fixed x1 y1 x2 y2 x3 y3 = some w →
      w.lo1 &&& 0xFFFF = encFixed (ysort3 (x1,y1) (x2,y2) (x3,y3)).1.2 ∧
      w.lo1 >>> 16 = encFixed (ysort3 (x1,y1) (x2,y2) (x3,y3)).2.1.2 ∧
      w.hi1 &&& 0x3FFF = encFixed (ysort3 (x1,y1) (x2,y2) (x3,y3)).2.2.2) ∧
    (∀ (x1 y1 x2 y2 x3 y3 : ℚ) (w : TriWords),
      0 ≤ y1 → y1 ≤ 2047 → 0 ≤ y2 → y2 ≤ 2047 → 0 ≤ y3 → y3 ≤ 2047 →
      rdp_draw_filled_triangle x1 y1 x2 y2 x3 y3 = some w →
      w.lo1 &&& 0xFFFF = (ratTrunc ((ysort3 (x1,y1) (x2,y2) (x3,y3)).1.2 * 4)).toNat ∧
      w.lo1 >>> 16 = (ratTrunc ((ysort3 (x1,y1) (x2,y2) (x3,y3)).2.1.2 * 4)).toNat ∧
      w.hi1 &&& 0x3FFF = (ratTrunc ((ysort3 (x1,y1) (x2,y2) (x3,y3)).2.2.2 * 4)).toNat) ∧
    (∀ n : Nat, n < 2048 →
      (encFixed (65536 * (n : Int)) : Int) = (4 * (65536 * (n : Int))).fdiv 65536) :=
  ⟨ysort3_sorted_int, ysort3_sorted_rat, triFixed_y_fields, triFloat_y_fields,
    encFixed_integral⟩

/-- C6 amended, witness: the integral Y value 1.0 (0x10000) encodes to 4
in the fixed variant, matching the 11.2 truncation. -/
theorem claim_C6_amended_witness :
    (1 : Nat) < 2048 ∧
    (encFixed (65536 * ((1:Nat) : Int)) : Int) = (4 * (65536 * ((1:Nat) : Int))).fdiv 65536 :=
  ⟨by decide, claim_C6_amended.2.2.2.2 1 (by decide)⟩

/-- C4 counterexample: at a = 3 (raw), b = 1 (raw, nonzero) the claimed
round trip fails by 3 units in the last place: the biased product rounds
to 0 and dividing 0 by b returns 0, which is not within 1 of 3.  Moreover
the product of
16384.0 by itself wraps to 0 instead of rounding to the nearest
representable value. -/
theorem claim_C4_counterexample :
    (1 : Int) ≠ 0 ∧ FX_Divide (FX_Multiply 3 1) 1 = 0 ∧
    ¬ (|FX_Divide (FX_Multiply 3 1) 1 - 3| ≤ 1) ∧
    FX_Multiply 1073741824 1073741824 = 0 := by
  refine ⟨by decide, by decide, by decide, by decide⟩

/-- C4 amended: when the biased 64-bit product fits in 32 bits,
FX_Multiply rounds the exact product to the nearest representable Q16.16
value with ties toward the bias direction (the wrapped result times 2^16
differs from the exact product by more than -2^15 and at most 2^15); and
when additionally the divisor has magnitude at least 1.0 (raw 65536),
FX_Divide recovers the first factor to within 1 unit in the last place. -/
theorem claim_C4_amended :
    ∀ a b : Int, inRange32 a → inRange32 b →
      inRange32 ((a * b + FX_K).fdiv 65536) →
      (-32768 < FX_Multiply a b * 65536 - a * b ∧ FX_Multiply a b * 65536 - a * b ≤ 32768) ∧
      (65536 ≤ |b| → |FX_Divide (FX_Multiply a b) b - a| ≤ 1) := by
  intro a b ha hb hq
  obtain ⟨ha1, ha2⟩ := ha
  obtain ⟨hb1, hb2⟩ := hb
  have hfd : (a * b + FX_K).fdiv 65536 = (a * b + 32768) / 65536 := by
    rw [show FX_K = (32768:Int) from rfl]
    exact Int.fdiv_eq_ediv _ (by norm_num)
  rw [hfd] at hq
  obtain ⟨hq1, hq2⟩ := hq
  have hmul : FX_Multiply a b = (a * b + 32768) / 65536 := by
    unfold FX_Multiply
    rw [hfd]
    exact toInt32_eq_self hq1 hq2
  constructor
  · rw [hmul]
    omega
  · intro habs
    rw [hmul]
    suffices hsuf : FX_Divide ((a * b + 32768) / 65536) b = a by
      rw [hsuf]
      simp
    have hbcase : 65536 ≤ b ∨ b ≤ -65536 := by
      rcases abs_cases b with ⟨h, _⟩ | ⟨h, _⟩ <;> omega
    simp only [FX_Divide]
    rcases hbcase with hbp | hbn
    · -- positive divisor: at least 1.0
      have hbt : b.tdiv 2 = b / 2 := Int.tdiv_eq_ediv (by omega) (by norm_num)
      by_cases htemp : 0 ≤ (a * b + 32768) / 65536 * 65536
      · rw [if_pos (Or.inl ⟨htemp, by omega⟩), hbt]
        rw [Int.tdiv_eq_ediv (by omega) (by omega)]
        have hsplit : (a * b + 32768) / 65536 * 65536 + b / 2 =
            ((a * b + 32768) / 65536 * 65536 - a * b + b / 2) + a * b := by omega
        rw [hsplit, Int.add_mul_ediv_right _ _ (by omega : b ≠ 0)]
        have htb : (a * b + 32768) / 65536 * 65536 - a * b + b / 2 < b := by
          by_contra hcon
          push_neg at hcon
          have hbv : b = 65536 ∧ (a * b + 32768) / 65536 * 65536 - a * b = 32768 := by omega
          obtain ⟨hbv1, hbv2⟩ := hbv
          rw [hbv1] at hbv2
          omega
        rw [Int.ediv_eq_zero_of_lt (by omega) htb]
        rw [zero_add]
        exact toInt32_eq_self ha1 ha2
      · rw [if_neg (by rintro (⟨h1, _⟩ | ⟨_, h2⟩) <;> omega), hbt]
        have hneg : ((a * b + 32768) / 65536 * 65536 - b / 2) =
            -(-((a * b + 32768) / 65536 * 65536 - b / 2)) := by omega
        rw [hneg, Int.neg_tdiv]
        rw [Int.tdiv_eq_ediv (by omega) (by omega)]
        have hsplit : -((a * b + 32768) / 65536 * 65536 - b / 2) =
            (b / 2 - ((a * b + 32768) / 65536 * 65536 - a * b)) + -a * b := by
          have hring : -a * b = -(a * b) := by ring
          omega
        rw [hsplit, Int.add_mul_ediv_right _ _ (by omega : b ≠ 0)]
        have hub : b / 2 - ((a * b + 32768) / 65536 * 65536 - a * b) < b := by omega
        rw [Int.ediv_eq_zero_of_lt (by omega) hub]
        have hz : (0 + -a : Int) = -a := by omega
        rw [hz, neg_neg]
        exact toInt32_eq_self ha1 ha2
    · -- negative divisor: at most -1.0
      have hbt : b.tdiv 2 = -((-b) / 2) := by
        have h1 : b.tdiv 2 = (-(-b)).tdiv 2 := by norm_num
        rw [h1, Int.neg_tdiv, Int.tdiv_eq_ediv (by omega) (by norm_num)]
      have hbneg : b = -(-b) := by omega
      by_cases htemp : (a * b + 32768) / 65536 * 65536 < 0
      · rw [if_pos (Or.inr ⟨htemp, by omega⟩), hbt]
        rw [show ((a * b + 32768) / 65536 * 65536 + -(-b / 2)).tdiv b =
            ((a * b + 32768) / 65536 * 65536 + -(-b / 2)).tdiv (-(-b)) from by rw [← hbneg]]
        rw [Int.tdiv_neg]
        have hneg2 : ((a * b + 32768) / 65536 * 65536 + -(-b / 2)) =
            -(-((a * b + 32768) / 65536 * 65536 + -(-b / 2))) := by omega
        rw [hneg2, Int.neg_tdiv, neg_neg]
        rw [Int.tdiv_eq_ediv (by omega) (by omega)]
        have hsplit : -((a * b + 32768) / 65536 * 65536 + -(-b / 2)) =
            ((-b) / 2 - ((a * b + 32768) / 65536 * 65536 - a * b)) + a * -b := by
          have hring : a * -b = -(a * b) := by ring
          omega
        rw [hsplit, Int.add_mul_ediv_right _ _ (by omega : -b ≠ 0)]
        have hub : (-b) / 2 - ((a * b + 32768) / 65536 * 65536 - a * b) < -b := by omega
        rw [Int.ediv_eq_zero_of_lt (by omega) hub]
        rw [zero_add]
        exact toInt32_eq_self ha1 ha2
      · rw [if_neg (by rintro (⟨h1, h2⟩ | ⟨h3, h4⟩) <;> omega), hbt]
        rw [show ((a * b + 32768) / 65536 * 65536 - -(-b / 2)).tdiv b =
            ((a * b + 32768) / 65536 * 65536 - -(-b / 2)).tdiv (-(-b)) from by rw [← hbneg]]
        rw [Int.tdiv_neg]
        rw [Int.tdiv_eq_ediv (by omega) (by omega)]
        have hsplit : ((a * b + 32768) / 65536 * 65536 - -(-b / 2)) =
            (((a * b + 32768) / 65536 * 65536 - a * b) + (-b) / 2) + -a * -b := by
          have hring : -a * -b = a * b := by ring
          omega
        rw [hsplit, Int.add_mul_ediv_right _ _ (by omega : -b ≠ 0)]
        have htb : ((a * b + 32768) / 65536 * 65536 - a * b) + (-b) / 2 < -b := by
          by_contra hcon
          push_neg at hcon
          have hbv : b = -65536 ∧ (a * b + 32768) / 65536 * 65536 - a * b = 32768 := by omega
          obtain ⟨hbv1, hbv2⟩ := hbv
          rw [hbv1] at hbv2
          omega
        rw [Int.ediv_eq_zero_of_lt (by omega) htb]
        have hz : (0 + -a : Int) = -a := by omega
        rw [hz, neg_neg]
        exact toInt32_eq_self ha1 ha2

/-- C4 amended, witness: the round trip at a = 5 (raw), b = 1.0
(raw 65536). -/
theorem claim_C4_amended_witness :
    inRange32 (5 : Int) ∧ inRange32 (65536 : Int) ∧
    inRange32 (((5 : Int) * 65536 + FX_K).fdiv 65536) ∧ 65536 ≤ |(65536 : Int)| ∧
    (-32768 < FX_Multiply 5 65536 * 65536 - 5 * 65536 ∧
      FX_Multiply 5 65536 * 65536 - 5 * 65536 ≤ 32768) ∧
    |FX_Divide (FX_Multiply 5 65536) 65536 - 5| ≤ 1 :=
  ⟨by decide, by decide, by decide, by decide,
    (claim_C4_amended 5 65536 (by decide) (by decide) (by decide)).1,
    (claim_C4_amended 5 65536 (by decide) (by decide) (by decide)).2 (by decide)⟩
